import Mathlib

/-!
Verification of the ncsp (channel-first) convolution adaptation layer
(src/cpu/x64/jit_ncsp_conv.cpp): strategy planning (matmul vs
reorder+nested-convolution), descriptor reshaping, scratchpad booking and the
per-invocation executor, shallowly embedded over the descriptor data model.
External collaborators (nested matmul / convolution / reorder constructors,
the descriptor reshape routine and layout-tag matching) are modelled as an
abstract environment or from the specification, as noted on each definition.
-/

namespace OneDnnNcspConv

/-- Element data types of tensor descriptors (dnnl_data_type_t). -/
inductive data_type_t
  | f32
  | bf16
  | f16
  | s32
  | s8
  | u8
deriving DecidableEq, Repr, Inhabited

/-- Byte size of one element of each data type. -/
def data_type_size : data_type_t → Nat
  | .f32 => 4
  | .bf16 => 2
  | .f16 => 2
  | .s32 => 4
  | .s8 => 1
  | .u8 => 1

/-- The C++ expression sizeof(dnnl_data_type_t) used by init_scratchpad books
the byte size of the enum tag itself, which is 4 on every supported platform,
independent of the element type it names. -/
def sizeof_data_type_enum : Nat := 4

/-- Memory format tags (subset relevant to this file): channel-first (ncw,
nchw, ncdhw), channel-last (nwc, nhwc, ndhwc), the placeholder any, a derived
blocked/strided layout, and undef. -/
inductive format_tag_t
  | ncw
  | nchw
  | ncdhw
  | nwc
  | nhwc
  | ndhwc
  | fmt_any
  | blocked
  | fmt_undefined
deriving DecidableEq, Repr, Inhabited

/-- Tensor descriptor: per-axis extents, element type and layout tag. -/
structure memory_desc_t where
  dims : List Nat
  data_type : data_type_t
  format : format_tag_t
deriving DecidableEq, Repr, Inhabited

/-- Number of axes of a descriptor. -/
def memory_desc_t.ndims (md : memory_desc_t) : Nat := md.dims.length

/-- Total element count of a descriptor (product of extents). -/
def memory_desc_t.nelems (md : memory_desc_t) : Nat := md.dims.prod

/-- Total byte size of a dense descriptor. -/
def memory_desc_t.size (md : memory_desc_t) : Nat :=
  md.nelems * data_type_size md.data_type

/-- Whether any axis of the descriptor has extent zero. -/
def memory_desc_t.has_zero_dim (md : memory_desc_t) : Bool :=
  md.dims.any (fun d => d == 0)

/-- Propagation kinds. -/
inductive prop_kind_t
  | forward_training
  | forward_inference
  | backward_data
  | backward_weights
deriving DecidableEq, Repr, Inhabited

/-- Convolution algorithm kinds. -/
inductive alg_kind_t
  | convolution_auto
  | convolution_direct
  | convolution_winograd
deriving DecidableEq, Repr, Inhabited

/-- Status codes returned throughout the library.  The spec names them
ShapeError (invalid_arguments), UnsupportedShapeError / NoImplementationError
(unimplemented) and ResourceError (out_of_memory). -/
inductive status_t
  | success
  | out_of_memory
  | invalid_arguments
  | unimplemented
  | runtime_error
deriving DecidableEq, Repr, Inhabited

/-- The convolution operation descriptor together with the primitive-attribute
information the planner inspects: propagation, algorithm, the four memory
descriptors, per-spatial-axis strides / dilations / paddings, grouping, bias
presence, whether the attribute set is default, and whether a sum-style
accumulation into the existing destination is requested (with_sum_ in the
source, declared in the class header; modelled from the spec). -/
structure conv_desc_t where
  prop_kind : prop_kind_t
  alg_kind : alg_kind_t
  src_desc : memory_desc_t
  weights_desc : memory_desc_t
  bias_desc : memory_desc_t
  dst_desc : memory_desc_t
  strides : List Nat
  dilates : List Nat
  padding_l : List Nat
  padding_r : List Nat
  with_groups : Bool
  with_bias : Bool
  attr_default : Bool
  with_sum : Bool
deriving DecidableEq, Repr, Inhabited

namespace conv_desc_t

/-- Rank of the convolution (taken from the source descriptor). -/
def ndims (c : conv_desc_t) : Nat := c.src_desc.ndims

/-- Minibatch extent. -/
def MB (c : conv_desc_t) : Nat := c.src_desc.dims.getD 0 0

/-- Group count: leading weights axis when grouped, otherwise 1. -/
def G (c : conv_desc_t) : Nat :=
  if c.with_groups then c.weights_desc.dims.getD 0 0 else 1

/-- Input depth (1 unless the convolution has three spatial axes). -/
def ID (c : conv_desc_t) : Nat :=
  if 5 ≤ c.ndims then c.src_desc.dims.getD (c.ndims - 3) 0 else 1

/-- Input height (1 unless at least two spatial axes). -/
def IH (c : conv_desc_t) : Nat :=
  if 4 ≤ c.ndims then c.src_desc.dims.getD (c.ndims - 2) 0 else 1

/-- Input width. -/
def IW (c : conv_desc_t) : Nat :=
  if 3 ≤ c.ndims then c.src_desc.dims.getD (c.ndims - 1) 0 else 1

/-- Output depth. -/
def OD (c : conv_desc_t) : Nat :=
  if 5 ≤ c.ndims then c.dst_desc.dims.getD (c.ndims - 3) 0 else 1

/-- Output height. -/
def OH (c : conv_desc_t) : Nat :=
  if 4 ≤ c.ndims then c.dst_desc.dims.getD (c.ndims - 2) 0 else 1

/-- Output width. -/
def OW (c : conv_desc_t) : Nat :=
  if 3 ≤ c.ndims then c.dst_desc.dims.getD (c.ndims - 1) 0 else 1

/-- Offset of the spatial axes inside the weights descriptor. -/
def g_off (c : conv_desc_t) : Nat := if c.with_groups then 1 else 0

/-- Kernel depth extent. -/
def KD (c : conv_desc_t) : Nat :=
  if 5 ≤ c.ndims then c.weights_desc.dims.getD (c.ndims - 3 + c.g_off) 0 else 1

/-- Kernel height extent. -/
def KH (c : conv_desc_t) : Nat :=
  if 4 ≤ c.ndims then c.weights_desc.dims.getD (c.ndims - 2 + c.g_off) 0 else 1

/-- Kernel width extent. -/
def KW (c : conv_desc_t) : Nat :=
  if 3 ≤ c.ndims then c.weights_desc.dims.getD (c.ndims - 1 + c.g_off) 0 else 1

/-- Stride along depth. -/
def KSD (c : conv_desc_t) : Nat :=
  if 5 ≤ c.ndims then c.strides.getD 0 0 else 1

/-- Stride along height. -/
def KSH (c : conv_desc_t) : Nat :=
  if 4 ≤ c.ndims then c.strides.getD (c.ndims - 4) 0 else 1

/-- Stride along width. -/
def KSW (c : conv_desc_t) : Nat :=
  if 3 ≤ c.ndims then c.strides.getD (c.ndims - 3) 0 else 1

/-- Dilation along depth. -/
def KDD (c : conv_desc_t) : Nat :=
  if 5 ≤ c.ndims then c.dilates.getD 0 0 else 0

/-- Dilation along height. -/
def KDH (c : conv_desc_t) : Nat :=
  if 4 ≤ c.ndims then c.dilates.getD (c.ndims - 4) 0 else 0

/-- Dilation along width. -/
def KDW (c : conv_desc_t) : Nat :=
  if 3 ≤ c.ndims then c.dilates.getD (c.ndims - 3) 0 else 0

/-- Front padding (depth). -/
def padFront (c : conv_desc_t) : Nat :=
  if 5 ≤ c.ndims then c.padding_l.getD 0 0 else 0

/-- Back padding (depth). -/
def padBack (c : conv_desc_t) : Nat :=
  if 5 ≤ c.ndims then c.padding_r.getD 0 0 else 0

/-- Top padding (height). -/
def padT (c : conv_desc_t) : Nat :=
  if 4 ≤ c.ndims then c.padding_l.getD (c.ndims - 4) 0 else 0

/-- Bottom padding (height). -/
def padB (c : conv_desc_t) : Nat :=
  if 4 ≤ c.ndims then c.padding_r.getD (c.ndims - 4) 0 else 0

/-- Left padding (width). -/
def padL (c : conv_desc_t) : Nat :=
  if 3 ≤ c.ndims then c.padding_l.getD (c.ndims - 3) 0 else 0

/-- Right padding (width). -/
def padR (c : conv_desc_t) : Nat :=
  if 3 ≤ c.ndims then c.padding_r.getD (c.ndims - 3) 0 else 0

/-- Forward propagation (training or inference). -/
def is_fwd (c : conv_desc_t) : Bool :=
  c.prop_kind == .forward_training || c.prop_kind == .forward_inference

end conv_desc_t

/-- Channel-first layout tag for a given rank (source: get_ncsp_tag). -/
def get_ncsp_tag (ndims : Nat) : format_tag_t :=
  match ndims with
  | 3 => .ncw
  | 4 => .nchw
  | 5 => .ncdhw
  | _ => .fmt_undefined

/-- Channel-last layout tag for a given rank (source: get_nspc_tag). -/
def get_nspc_tag (ndims : Nat) : format_tag_t :=
  match ndims with
  | 3 => .nwc
  | 4 => .nhwc
  | 5 => .ndhwc
  | _ => .fmt_undefined

/-- Modelled from the spec: the external layout-tag recognizer
(memory_desc_matches_tag, outside src/).  A descriptor matches a concrete tag
exactly when its recorded layout is that tag; the undef and any tags match
nothing. -/
def memory_desc_matches_tag (md : memory_desc_t) (tag : format_tag_t) : Bool :=
  tag != .fmt_undefined && tag != .fmt_any && md.format == tag

/-- Modelled from the spec: the external descriptor-reshape collaborator
(memory_desc_reshape, outside src/).  It regroups axes with no change to the
underlying element count or layout, so it succeeds exactly when the requested
extents hold the same number of elements as the input descriptor and fails
with ShapeError (invalid_arguments) otherwise. -/
def memory_desc_reshape (i_md : memory_desc_t) (newdims : List Nat) :
    Except status_t memory_desc_t :=
  if newdims.prod = i_md.dims.prod then
    .ok { dims := newdims, data_type := i_md.data_type, format := .blocked }
  else
    .error .invalid_arguments

/-- Modelled from the spec: the external memory_desc_init_by_tag collaborator
(outside src/): keep the extents and element type, install the given concrete
layout tag; fails on undef or any. -/
def memory_desc_init_by_tag (md : memory_desc_t) (tag : format_tag_t) :
    Except status_t memory_desc_t :=
  if tag = .fmt_undefined ∨ tag = .fmt_any then .error .invalid_arguments
  else .ok { md with format := tag }

/-- Modelled from the spec: zero-sized (degenerate) tensors are rejected
regardless of strategy (has_zero_dim_memory, outside src/). -/
def has_zero_dim_memory (c : conv_desc_t) : Bool :=
  c.src_desc.has_zero_dim || c.weights_desc.has_zero_dim
    || c.dst_desc.has_zero_dim

/-- Source pd_t::reshape_activations: convert an activation descriptor between
convolution shape and matmul shape.  Towards matmul the channel axis is split
into group and per-group channels and the spatial axes are collapsed into one
axis of extent ID*IH*IW; away from matmul the original axes are read back from
the pd's src (or dst) descriptor, the remaining slots of the fixed-size dims
array staying at their zero initialization. -/
def reshape_activations (c : conv_desc_t) (i_md : memory_desc_t)
    (to_matmul is_dst : Bool) : Except status_t memory_desc_t :=
  if to_matmul then
    memory_desc_reshape i_md
      ([c.MB] ++ (if c.with_groups then [c.G] else [])
        ++ [i_md.dims.getD 1 0 / c.G, c.ID * c.IH * c.IW])
  else
    memory_desc_reshape i_md
      (((List.range c.ndims).map
          (fun d => (if is_dst then c.dst_desc else c.src_desc).dims.getD d 0))
        ++ List.replicate (if c.with_groups then 1 else 0) 0)

/-- Source pd_t::reshape_weights: convert a weights descriptor between
convolution shape and matmul shape.  Towards matmul a batch axis of extent 1
is prepended, the group/output/input channel axes are kept and the kernel
spatial axes are dropped; away from matmul the batch axis is removed and every
kernel spatial axis is restored with extent 1. -/
def reshape_weights (c : conv_desc_t) (i_md : memory_desc_t)
    (to_matmul : Bool) : Except status_t memory_desc_t :=
  let ndims_ch : Nat := 2 + (if c.with_groups then 1 else 0)
  if to_matmul then
    memory_desc_reshape i_md
      (1 :: (List.range ndims_ch).map (fun d => i_md.dims.getD d 0))
  else
    let ndims_out : Nat := (if c.with_groups then 1 else 0) + c.ndims
    memory_desc_reshape i_md
      ((List.range ndims_ch).map (fun d => i_md.dims.getD (d + 1) 0)
        ++ List.replicate (ndims_out - ndims_ch) 1)

/-- A constructed sub-operation descriptor returned by an external
constructor: the operand layouts it chose and its own scratchpad
requirement in bytes (its scratchpad_registry, opaque to this layer). -/
structure ext_pd_t where
  src_md : memory_desc_t
  weights_md : memory_desc_t
  bias_md : memory_desc_t
  scratch_size : Nat
deriving DecidableEq, Repr, Inhabited

/-- A realized executable sub-operation instance, built from its descriptor. -/
structure primitive_t where
  pd : ext_pd_t
deriving DecidableEq, Repr, Inhabited

/-- The external engine: the collaborators consumed by the planner and the
instance builder.  conv_pd_iterate stands for the primitive-descriptor
iterator (first successfully constructed candidate, or out_of_memory when the
iterator fails to initialize, or unimplemented when no candidate constructs);
matmul_pd_create and reorder_pd_create are the nested matmul and reorder
descriptor constructors; create_primitive realizes a descriptor. -/
structure engine_t where
  conv_pd_iterate : conv_desc_t → Except status_t ext_pd_t
  matmul_pd_create : memory_desc_t → memory_desc_t → Option memory_desc_t →
    memory_desc_t → Except status_t ext_pd_t
  reorder_pd_create : memory_desc_t → memory_desc_t → Except status_t ext_pd_t
  create_primitive : ext_pd_t → Except status_t primitive_t

/-- Planner state (source pd_t): the descriptor set, the resolved weights and
bias descriptors, the strategy flag is_matmul_ and the sub-operation
descriptors of whichever strategy was planned. -/
structure pd_t where
  cfg : conv_desc_t
  weights_md : memory_desc_t
  bias_md : memory_desc_t
  is_matmul : Bool
  matmul_src_md : memory_desc_t
  matmul_wei_md : memory_desc_t
  matmul_dst_md : memory_desc_t
  nspc_src_md : memory_desc_t
  nspc_dst_md : memory_desc_t
  matmul_pd : Option ext_pd_t
  nspc_conv_pd : Option ext_pd_t
  src_reorder_pd : Option ext_pd_t
  dst_pre_reorder_pd : Option ext_pd_t
  dst_post_reorder_pd : Option ext_pd_t
deriving DecidableEq, Repr, Inhabited

/-- Placeholder descriptor for not-yet-planned fields. -/
def md_nil : memory_desc_t := { dims := [], data_type := .f32, format := .fmt_undefined }

/-- Source convolution_pd::set_default_alg_kind: convolution_auto is resolved
to the given default; returns the resolved kind and whether it now equals the
default (convolution_direct here). -/
def set_default_alg_kind (alg : alg_kind_t) : alg_kind_t × Bool :=
  let alg1 := if alg = .convolution_auto then .convolution_direct else alg
  (alg1, alg1 == .convolution_direct)

/-- The eligibility gate of pd_t::init (local variable ok): forward
propagation, algorithm resolving to direct, default attributes, no zero-sized
tensor, and source and destination in the channel-first tag of their rank. -/
def init_gate (c : conv_desc_t) : Bool :=
  c.is_fwd && (set_default_alg_kind c.alg_kind).2 && c.attr_default
    && !(has_zero_dim_memory c)
    && memory_desc_matches_tag c.src_desc (get_ncsp_tag c.ndims)
    && memory_desc_matches_tag c.dst_desc (get_ncsp_tag c.ndims)

/-- The shape-degeneracy test of pd_t::init (local variable is_gemm): 1x1x1
kernel, no pre- or post-padding, unit strides. -/
def is_gemm (c : conv_desc_t) : Bool :=
  (c.KD == 1 && c.KH == 1 && c.KW == 1)
    && (c.padFront == 0 && c.padT == 0 && c.padL == 0)
    && (c.padBack == 0 && c.padB == 0 && c.padR == 0)
    && (c.KSD == 1 && c.KSH == 1 && c.KSW == 1)

/-- The strategy selection of pd_t::init (member is_matmul_): gemm-degenerate
shape, default attributes and no bias. -/
def sel_is_matmul (c : conv_desc_t) : Bool :=
  is_gemm c && c.attr_default && !c.with_bias

/-- The descriptor after set_default_alg_kind resolved convolution_auto. -/
def cfg_with_default_alg (c : conv_desc_t) : conv_desc_t :=
  { c with alg_kind := (set_default_alg_kind c.alg_kind).1 }

/-- Planner state just after the gate and strategy selection of pd_t::init:
no sub-operation descriptor planned yet. -/
def pd_t.start (c : conv_desc_t) : pd_t :=
  { cfg := cfg_with_default_alg c
    weights_md := c.weights_desc
    bias_md := c.bias_desc
    is_matmul := sel_is_matmul c
    matmul_src_md := md_nil
    matmul_wei_md := md_nil
    matmul_dst_md := md_nil
    nspc_src_md := md_nil
    nspc_dst_md := md_nil
    matmul_pd := none
    nspc_conv_pd := none
    src_reorder_pd := none
    dst_pre_reorder_pd := none
    dst_post_reorder_pd := none }

/-- Source pd_t::init_matmul: reshape the convolution destination, source and
weights into matmul destination, weights and source respectively (the role
swap keeps conv src and dst untouched in their channel-first layout), create
the nested matmul descriptor from them, then back-fill caller-unspecified
(format any) weights and bias layouts from the constructed matmul. -/
def pd_t.init_matmul (engine : engine_t) (pd : pd_t) : Except status_t pd_t :=
  match reshape_activations pd.cfg pd.cfg.dst_desc true true with
  | .error e => .error e
  | .ok matmul_dst =>
  match reshape_activations pd.cfg pd.cfg.src_desc true false with
  | .error e => .error e
  | .ok matmul_wei =>
  match reshape_weights pd.cfg pd.weights_md true with
  | .error e => .error e
  | .ok matmul_src =>
  match engine.matmul_pd_create matmul_src matmul_wei none matmul_dst with
  | .error e => .error e
  | .ok mpd =>
    let pd1 : pd_t := { pd with
      matmul_src_md := matmul_src
      matmul_wei_md := matmul_wei
      matmul_dst_md := matmul_dst
      matmul_pd := some mpd }
    let bias1 := if pd.bias_md.format = .fmt_any then mpd.bias_md else pd.bias_md
    if pd.weights_md.format = .fmt_any then
      match reshape_weights pd.cfg mpd.src_md false with
      | .error e => .error e
      | .ok w => .ok { pd1 with weights_md := w, bias_md := bias1 }
    else
      .ok { pd1 with bias_md := bias1 }

/-- Source pd_t::init_convolution: build channel-last source and destination
descriptors, construct the nested channel-last convolution through the
implementation iterator, back-fill caller-unspecified weights and bias
layouts from it, then construct the source reorder, the destination
pre-reorder (only when a sum-style accumulation is requested) and the
destination post-reorder. -/
def pd_t.init_convolution (engine : engine_t) (pd : pd_t) :
    Except status_t pd_t :=
  match memory_desc_init_by_tag pd.cfg.src_desc (get_nspc_tag pd.cfg.ndims) with
  | .error e => .error e
  | .ok nspc_src =>
  match memory_desc_init_by_tag pd.cfg.dst_desc (get_nspc_tag pd.cfg.ndims) with
  | .error e => .error e
  | .ok nspc_dst =>
  match engine.conv_pd_iterate
      { pd.cfg with src_desc := nspc_src, dst_desc := nspc_dst } with
  | .error e => .error e
  | .ok cpd =>
    let weights1 :=
      if pd.weights_md.format = .fmt_any then cpd.weights_md else pd.weights_md
    let bias1 :=
      if pd.bias_md.format = .fmt_any then cpd.bias_md else pd.bias_md
    match engine.reorder_pd_create pd.cfg.src_desc nspc_src with
    | .error e => .error e
    | .ok src_r =>
    match (if pd.cfg.with_sum then
            (engine.reorder_pd_create pd.cfg.dst_desc nspc_dst).map some
          else .ok none) with
    | .error e => .error e
    | .ok pre_r =>
    match engine.reorder_pd_create nspc_dst pd.cfg.dst_desc with
    | .error e => .error e
    | .ok post_r =>
      .ok { pd with
        nspc_src_md := nspc_src
        nspc_dst_md := nspc_dst
        weights_md := weights1
        bias_md := bias1
        nspc_conv_pd := some cpd
        src_reorder_pd := some src_r
        dst_pre_reorder_pd := pre_r
        dst_post_reorder_pd := some post_r }

/-- Source pd_t::init: check the gate, select the strategy, and plan the
selected branch. -/
def pd_t.init (engine : engine_t) (c : conv_desc_t) : Except status_t pd_t :=
  if !(init_gate c) then .error .unimplemented
  else if sel_is_matmul c then pd_t.init_matmul engine (pd_t.start c)
  else pd_t.init_convolution engine (pd_t.start c)

/-- Scratchpad keys used by this primitive. -/
inductive scratch_key
  | key_conv_ncsp_dst
  | key_conv_ncsp_src
  | key_nested
deriving DecidableEq, Repr, Inhabited

/-- One reservation made on the scratchpad registrar: a flat region of
count * esize bytes, or an opaque nested region of a sub-operation's own
total requirement. -/
inductive booking
  | region (key : scratch_key) (count : Nat) (esize : Nat)
  | nested (key : scratch_key) (size : Nat)
deriving DecidableEq, Repr, Inhabited

/-- Nested reservation for an optional sub-operation descriptor. -/
def book_nested : Option ext_pd_t → List booking
  | none => []
  | some p => [.nested .key_nested p.scratch_size]

/-- Source pd_t::init_scratchpad: for the matmul strategy one nested region
for the matmul's own requirement; for the reorder strategy the channel-last
destination and source buffers (booked as element count times
sizeof(dnnl_data_type_t), the byte size of the enum tag) plus one nested
region per present sub-operation. -/
def pd_t.init_scratchpad (pd : pd_t) : List booking :=
  if pd.is_matmul then
    book_nested pd.matmul_pd
  else
    [.region .key_conv_ncsp_dst pd.cfg.dst_desc.nelems sizeof_data_type_enum,
     .region .key_conv_ncsp_src pd.cfg.src_desc.nelems sizeof_data_type_enum]
      ++ book_nested pd.nspc_conv_pd
      ++ book_nested pd.src_reorder_pd
      ++ book_nested pd.dst_pre_reorder_pd
      ++ book_nested pd.dst_post_reorder_pd

/-- The executable instance (source ncsp_convolution_fwd_t): the plan and the
realized sub-operation instances. -/
structure ncsp_convolution_fwd_t where
  pd : pd_t
  matmul_p : Option primitive_t
  nspc_conv_p : Option primitive_t
  src_reorder_p : Option primitive_t
  dst_pre_reorder_p : Option primitive_t
  dst_post_reorder_p : Option primitive_t
deriving DecidableEq, Repr, Inhabited

/-- Realize one optional sub-operation descriptor into an instance. -/
def create_opt (engine : engine_t) :
    Option ext_pd_t → Except status_t (Option primitive_t)
  | none => .ok none
  | some p => (engine.create_primitive p).map some

/-- Source ncsp_convolution_fwd_t::init: create a primitive for every
sub-operation descriptor the plan populated, propagating any failure. -/
def ncsp_convolution_fwd_t.init (engine : engine_t) (pd : pd_t) :
    Except status_t ncsp_convolution_fwd_t :=
  match create_opt engine pd.matmul_pd with
  | .error e => .error e
  | .ok matmul_p =>
  match create_opt engine pd.nspc_conv_pd with
  | .error e => .error e
  | .ok nspc_conv_p =>
  match create_opt engine pd.src_reorder_pd with
  | .error e => .error e
  | .ok src_reorder_p =>
  match create_opt engine pd.dst_pre_reorder_pd with
  | .error e => .error e
  | .ok dst_pre_reorder_p =>
  match create_opt engine pd.dst_post_reorder_pd with
  | .error e => .error e
  | .ok dst_post_reorder_p =>
    .ok { pd := pd, matmul_p := matmul_p, nspc_conv_p := nspc_conv_p,
          src_reorder_p := src_reorder_p, dst_pre_reorder_p := dst_pre_reorder_p,
          dst_post_reorder_p := dst_post_reorder_p }

/-- The caller-supplied execution arguments of the convolution. -/
inductive conv_arg
  | arg_src
  | arg_weights
  | arg_dst
  | arg_bias
deriving DecidableEq, Repr, Inhabited

/-- A buffer handle wrapped under a descriptor, as handed to a nested
sub-operation. -/
structure mem_arg where
  handle : Nat
  md : memory_desc_t
deriving DecidableEq, Repr, Inhabited

/-- The argument set handed to the nested matmul at execution time. -/
structure matmul_call where
  src : mem_arg
  weights : mem_arg
  dst : mem_arg
  bias : Option Nat
deriving DecidableEq, Repr, Inhabited

/-- Source ncsp_convolution_fwd_t::execute_matmul, argument wiring: the
caller's weights buffer is wrapped under the reshaped matmul source
descriptor, the caller's source buffer under the reshaped matmul weights
descriptor and the caller's destination buffer under the reshaped matmul
destination descriptor; the bias buffer is forwarded unchanged when present. -/
def ncsp_convolution_fwd_t.execute_matmul (fwd : ncsp_convolution_fwd_t)
    (ctx : conv_arg → Nat) : matmul_call :=
  { src := { handle := ctx .arg_weights, md := fwd.pd.matmul_src_md }
    weights := { handle := ctx .arg_src, md := fwd.pd.matmul_wei_md }
    dst := { handle := ctx .arg_dst, md := fwd.pd.matmul_dst_md }
    bias := if fwd.pd.cfg.with_bias then some (ctx .arg_bias) else none }

/-- The sub-operation steps of the reorder-strategy executor. -/
inductive step
  | src_reorder
  | dst_pre_reorder
  | conv
  | dst_post_reorder
deriving DecidableEq, Repr, Inhabited

/-- Source ncsp_convolution_fwd_t::execute_convolution: reorder the source
into channel-last scratch, optionally pre-reorder the destination when the
plan holds a destination pre-reorder, run the nested convolution, reorder the
destination back.  Each CHECK aborts with the failing step's status.  The
result records the status and the sequence of steps actually executed, with
each step's own outcome given by the run environment. -/
def ncsp_convolution_fwd_t.execute_convolution (pd : pd_t)
    (run : step → status_t) : status_t × List step :=
  let s1 := run .src_reorder
  if s1 ≠ .success then (s1, [.src_reorder])
  else if pd.dst_pre_reorder_pd.isSome then
    let s2 := run .dst_pre_reorder
    if s2 ≠ .success then (s2, [.src_reorder, .dst_pre_reorder])
    else
      let s3 := run .conv
      if s3 ≠ .success then (s3, [.src_reorder, .dst_pre_reorder, .conv])
      else
        (run .dst_post_reorder,
          [.src_reorder, .dst_pre_reorder, .conv, .dst_post_reorder])
  else
    let s3 := run .conv
    if s3 ≠ .success then (s3, [.src_reorder, .conv])
    else
      (run .dst_post_reorder, [.src_reorder, .conv, .dst_post_reorder])

/-- Outcome of one executor invocation: which branch ran and what it did. -/
inductive exec_result
  | matmul (call : matmul_call) (st : status_t)
  | convolution (st : status_t) (trace : List step)
  | no_primitive (st : status_t)
deriving DecidableEq, Repr, Inhabited

/-- Source ncsp_convolution_fwd_t::execute: dispatch on whichever nested
primitive the instance holds; with neither, runtime_error. -/
def ncsp_convolution_fwd_t.execute (fwd : ncsp_convolution_fwd_t)
    (ctx : conv_arg → Nat) (run_mm : matmul_call → status_t)
    (run_step : step → status_t) : exec_result :=
  if fwd.matmul_p.isSome then
    let call := fwd.execute_matmul ctx
    .matmul call (run_mm call)
  else if fwd.nspc_conv_p.isSome then
    let r := ncsp_convolution_fwd_t.execute_convolution fwd.pd run_step
    .convolution r.1 r.2
  else
    .no_primitive .runtime_error

/-- The matmul-eligibility condition list exactly as the specification states
it: forward propagation, algorithm reducing to direct convolution, every
kernel spatial extent 1, zero padding front and back on every spatial axis,
unit stride on every spatial axis, default attribute set, no bias. -/
def matmul_eligible (c : conv_desc_t) : Bool :=
  c.is_fwd
    && (c.alg_kind == .convolution_auto || c.alg_kind == .convolution_direct)
    && (c.KD == 1 && c.KH == 1 && c.KW == 1)
    && (c.padFront == 0 && c.padT == 0 && c.padL == 0)
    && (c.padBack == 0 && c.padB == 0 && c.padR == 0)
    && (c.KSD == 1 && c.KSH == 1 && c.KSW == 1)
    && c.attr_default && !c.with_bias

/-- Specification-side sequential runner: execute steps in the given order,
stopping at the first failure and returning its status verbatim, together
with the steps actually executed. -/
def runSeq (run : step → status_t) : List step → status_t × List step
  | [] => (.success, [])
  | s :: rest =>
    let st := run s
    if st ≠ .success then (st, [s])
    else
      let r := runSeq run rest
      (r.1, s :: r.2)

/-- The step order the specification prescribes for the reorder branch:
source reorder, the destination pre-reorder when planned, the nested
convolution, the destination post-reorder. -/
def conv_exec_steps (pd : pd_t) : List step :=
  [.src_reorder]
    ++ (if pd.dst_pre_reorder_pd.isSome then [.dst_pre_reorder] else [])
    ++ [.conv, .dst_post_reorder]

/-- Modelled from the spec: validity of a convolution descriptor set as
established by the external descriptor constructor (conv_desc_init, outside
src/): each output spatial extent is determined by the standard relation from
the input extent, paddings, dilated kernel extent and stride. -/
def conv_shapes_consistent (c : conv_desc_t) : Prop :=
  c.OD = (c.ID + c.padFront + c.padBack - ((c.KD - 1) * (c.KDD + 1) + 1)) / c.KSD + 1
    ∧ c.OH = (c.IH + c.padT + c.padB - ((c.KH - 1) * (c.KDH + 1) + 1)) / c.KSH + 1
    ∧ c.OW = (c.IW + c.padL + c.padR - ((c.KW - 1) * (c.KDW + 1) + 1)) / c.KSW + 1

instance (c : conv_desc_t) : Decidable (conv_shapes_consistent c) := by
  unfold conv_shapes_consistent
  infer_instance

/-- A concrete external engine whose constructors always succeed; the nested
descriptors record the operand descriptors they were constructed from. -/
def env0 : engine_t :=
  { conv_pd_iterate := fun d =>
      .ok { src_md := d.src_desc, weights_md := d.weights_desc,
            bias_md := d.bias_desc, scratch_size := 128 }
    matmul_pd_create := fun a b _ d =>
      .ok { src_md := a, weights_md := b, bias_md := d, scratch_size := 64 }
    reorder_pd_create := fun s d =>
      .ok { src_md := s, weights_md := d, bias_md := s, scratch_size := 32 }
    create_primitive := fun p => .ok { pd := p } }

/-- A matmul-eligible configuration: 4-D channel-first f32 tensors, 1x1
kernel, zero padding, unit stride, no bias, default attributes. -/
def cfgM : conv_desc_t :=
  { prop_kind := .forward_inference
    alg_kind := .convolution_direct
    src_desc := { dims := [1, 2, 4, 4], data_type := .f32, format := .nchw }
    weights_desc := { dims := [2, 2, 1, 1], data_type := .f32, format := .blocked }
    bias_desc := md_nil
    dst_desc := { dims := [1, 2, 4, 4], data_type := .f32, format := .nchw }
    strides := [1, 1]
    dilates := [0, 0]
    padding_l := [0, 0]
    padding_r := [0, 0]
    with_groups := false
    with_bias := false
    attr_default := true
    with_sum := true }

/-- A reorder-strategy configuration: 3x3 kernel, sum-style accumulation
requested, otherwise like cfgM with the matching 2x2 output. -/
def cfg6 : conv_desc_t :=
  { cfgM with
    weights_desc := { dims := [2, 2, 3, 3], data_type := .f32, format := .blocked }
    dst_desc := { dims := [1, 2, 2, 2], data_type := .f32, format := .nchw }
    with_sum := true }

/-- A reorder-strategy configuration over 1-byte s8 tensors, no accumulation. -/
def cfgS8 : conv_desc_t :=
  { cfg6 with
    src_desc := { dims := [1, 2, 4, 4], data_type := .s8, format := .nchw }
    weights_desc := { dims := [2, 2, 3, 3], data_type := .s8, format := .blocked }
    dst_desc := { dims := [1, 2, 2, 2], data_type := .s8, format := .nchw }
    with_sum := false }

/-- cfgM with backward propagation: every shape condition of matmul
eligibility holds but the propagation condition fails. -/
def cfgB : conv_desc_t := { cfgM with prop_kind := .backward_data }

/-- A grouped configuration (2 groups) with a 1x1 kernel: valid activation
descriptors over which the activation reshape pair can be exercised. -/
def cfgG : conv_desc_t :=
  { cfgM with
    src_desc := { dims := [2, 4, 3, 3], data_type := .f32, format := .nchw }
    weights_desc := { dims := [2, 2, 2, 1, 1], data_type := .f32, format := .blocked }
    dst_desc := { dims := [2, 4, 3, 3], data_type := .f32, format := .nchw }
    with_groups := true
    with_sum := false }

/-- cfgM with a channel-last source descriptor: the channel-first format
precondition fails. -/
def cfgBad : conv_desc_t :=
  { cfgM with
    src_desc := { dims := [1, 2, 4, 4], data_type := .f32, format := .nhwc } }

/-- Concrete buffer handles for the executor witnesses. -/
def ctx0 : conv_arg → Nat
  | .arg_src => 1
  | .arg_weights => 2
  | .arg_dst => 3
  | .arg_bias => 4

/-- The plan computed for cfgM. -/
def pdM : pd_t := (pd_t.init env0 cfgM).toOption.getD (pd_t.start cfgM)

/-- The plan computed for cfg6. -/
def pd6 : pd_t := (pd_t.init env0 cfg6).toOption.getD (pd_t.start cfg6)

/-- The plan computed for cfgS8. -/
def pdS8 : pd_t := (pd_t.init env0 cfgS8).toOption.getD (pd_t.start cfgS8)

/-- An instance built on the cfgM plan. -/
def fwdM : ncsp_convolution_fwd_t :=
  (ncsp_convolution_fwd_t.init env0 pdM).toOption.getD
    { pd := pdM, matmul_p := none, nspc_conv_p := none, src_reorder_p := none,
      dst_pre_reorder_p := none, dst_post_reorder_p := none }

/-! ### Characterization lemmas for the planner -/

/-- Successful matmul-branch planning: the configuration, strategy flag and
reorder/convolution slots are untouched, the three matmul operand descriptors
are the recorded reshapes, and the stored nested matmul is exactly what the
external constructor returned for those descriptors. -/
theorem init_matmul_ok (engine : engine_t) (pd pd2 : pd_t)
    (h : pd_t.init_matmul engine pd = .ok pd2) :
    pd2.cfg = pd.cfg ∧ pd2.is_matmul = pd.is_matmul
      ∧ pd2.nspc_conv_pd = pd.nspc_conv_pd
      ∧ pd2.src_reorder_pd = pd.src_reorder_pd
      ∧ pd2.dst_pre_reorder_pd = pd.dst_pre_reorder_pd
      ∧ pd2.dst_post_reorder_pd = pd.dst_post_reorder_pd
      ∧ reshape_activations pd.cfg pd.cfg.dst_desc true true = .ok pd2.matmul_dst_md
      ∧ reshape_activations pd.cfg pd.cfg.src_desc true false = .ok pd2.matmul_wei_md
      ∧ reshape_weights pd.cfg pd.weights_md true = .ok pd2.matmul_src_md
      ∧ (engine.matmul_pd_create pd2.matmul_src_md pd2.matmul_wei_md none
          pd2.matmul_dst_md).toOption = pd2.matmul_pd
      ∧ pd2.matmul_pd.isSome = true := by
  unfold pd_t.init_matmul at h
  cases h1 : reshape_activations pd.cfg pd.cfg.dst_desc true true with
  | error e => simp only [h1] at h; cases h
  | ok matmul_dst =>
  simp only [h1] at h
  cases h2 : reshape_activations pd.cfg pd.cfg.src_desc true false with
  | error e => simp only [h2] at h; cases h
  | ok matmul_wei =>
  simp only [h2] at h
  cases h3 : reshape_weights pd.cfg pd.weights_md true with
  | error e => simp only [h3] at h; cases h
  | ok matmul_src =>
  simp only [h3] at h
  cases h4 : engine.matmul_pd_create matmul_src matmul_wei none matmul_dst with
  | error e => simp only [h4] at h; cases h
  | ok mpd =>
  simp only [h4] at h
  by_cases hw : pd.weights_md.format = .fmt_any
  · rw [if_pos hw] at h
    cases h5 : reshape_weights pd.cfg mpd.src_md false with
    | error e => simp only [h5] at h; cases h
    | ok w =>
      simp only [h5] at h
      cases h
      simp_all [Except.toOption]
  · rw [if_neg hw] at h
    cases h
    simp_all [Except.toOption]

/-- Successful reorder-branch planning: the configuration, strategy flag and
matmul slot are untouched, the nested convolution, source reorder and
destination post-reorder are present, and the destination pre-reorder is
present exactly when a sum-style accumulation was requested. -/
theorem init_convolution_ok (engine : engine_t) (pd pd2 : pd_t)
    (h : pd_t.init_convolution engine pd = .ok pd2) :
    pd2.cfg = pd.cfg ∧ pd2.is_matmul = pd.is_matmul
      ∧ pd2.matmul_pd = pd.matmul_pd
      ∧ pd2.nspc_conv_pd.isSome = true
      ∧ pd2.src_reorder_pd.isSome = true
      ∧ pd2.dst_post_reorder_pd.isSome = true
      ∧ pd2.dst_pre_reorder_pd.isSome = pd.cfg.with_sum := by
  unfold pd_t.init_convolution at h
  cases h1 : memory_desc_init_by_tag pd.cfg.src_desc (get_nspc_tag pd.cfg.ndims) with
  | error e => simp only [h1] at h; cases h
  | ok nspc_src =>
  simp only [h1] at h
  cases h2 : memory_desc_init_by_tag pd.cfg.dst_desc (get_nspc_tag pd.cfg.ndims) with
  | error e => simp only [h2] at h; cases h
  | ok nspc_dst =>
  simp only [h2] at h
  cases h3 : engine.conv_pd_iterate
      { pd.cfg with src_desc := nspc_src, dst_desc := nspc_dst } with
  | error e => simp only [h3] at h; cases h
  | ok cpd =>
  simp only [h3] at h
  cases h4 : engine.reorder_pd_create pd.cfg.src_desc nspc_src with
  | error e => simp only [h4] at h; cases h
  | ok src_r =>
  simp only [h4] at h
  by_cases hs : pd.cfg.with_sum = true
  · rw [if_pos hs] at h
    cases h5 : engine.reorder_pd_create pd.cfg.dst_desc nspc_dst with
    | error e => simp only [h5, Except.map] at h; cases h
    | ok pre_r =>
      simp only [h5, Except.map] at h
      cases h6 : engine.reorder_pd_create nspc_dst pd.cfg.dst_desc with
      | error e => simp only [h6] at h; cases h
      | ok post_r =>
        simp only [h6] at h
        cases h
        simp_all
  · rw [if_neg hs] at h
    simp only [Bool.not_eq_true] at hs
    cases h6 : engine.reorder_pd_create nspc_dst pd.cfg.dst_desc with
    | error e => simp only [h6] at h; cases h
    | ok post_r =>
      simp only [h6] at h
      cases h
      simp_all

/-- Successful planning splits into the gate plus exactly one branch. -/
theorem pd_init_ok (engine : engine_t) (c : conv_desc_t) (pd : pd_t)
    (h : pd_t.init engine c = .ok pd) :
    init_gate c = true
      ∧ ((sel_is_matmul c = true ∧ pd_t.init_matmul engine (pd_t.start c) = .ok pd)
        ∨ (sel_is_matmul c = false
            ∧ pd_t.init_convolution engine (pd_t.start c) = .ok pd)) := by
  unfold pd_t.init at h
  by_cases hg : init_gate c = true
  · simp only [hg, Bool.not_true, Bool.false_eq_true, if_false] at h
    by_cases hm : sel_is_matmul c = true
    · rw [if_pos hm] at h
      exact ⟨hg, Or.inl ⟨hm, h⟩⟩
    · rw [if_neg hm] at h
      simp only [Bool.not_eq_true] at hm
      exact ⟨hg, Or.inr ⟨hm, h⟩⟩
  · simp only [Bool.not_eq_true] at hg
    simp only [hg, Bool.not_false, if_true] at h
    cases h

/-- A failed gate makes planning fail with unimplemented. -/
theorem pd_init_gate_false (engine : engine_t) (c : conv_desc_t)
    (hg : init_gate c = false) :
    pd_t.init engine c = .error .unimplemented := by
  unfold pd_t.init
  rw [hg]
  rfl

/-- The strategy flag of a successful plan equals the selection predicate. -/
theorem pd_init_is_matmul (engine : engine_t) (c : conv_desc_t) (pd : pd_t)
    (h : pd_t.init engine c = .ok pd) : pd.is_matmul = sel_is_matmul c := by
  rcases pd_init_ok engine c pd h with ⟨-, hcase⟩
  rcases hcase with ⟨hm, hb⟩ | ⟨hm, hb⟩
  · rcases init_matmul_ok engine _ pd hb with ⟨-, h2, -⟩
    rw [h2]; rfl
  · rcases init_convolution_ok engine _ pd hb with ⟨-, h2, -⟩
    rw [h2]; rfl

/-- Realizing an optional descriptor preserves presence. -/
theorem create_opt_ok (engine : engine_t) (o : Option ext_pd_t)
    (r : Option primitive_t) (h : create_opt engine o = .ok r) :
    r.isSome = o.isSome := by
  cases o with
  | none => cases h; rfl
  | some p =>
    simp only [create_opt] at h
    cases hc : engine.create_primitive p with
    | error e => simp only [hc, Except.map] at h; cases h
    | ok q =>
      simp only [hc, Except.map] at h
      cases h
      rfl

/-- Successful instance building keeps the plan and realizes exactly the
sub-operations the plan populated. -/
theorem fwd_init_ok (engine : engine_t) (pd : pd_t)
    (fwd : ncsp_convolution_fwd_t)
    (h : ncsp_convolution_fwd_t.init engine pd = .ok fwd) :
    fwd.pd = pd ∧ fwd.matmul_p.isSome = pd.matmul_pd.isSome
      ∧ fwd.nspc_conv_p.isSome = pd.nspc_conv_pd.isSome := by
  unfold ncsp_convolution_fwd_t.init at h
  cases h1 : create_opt engine pd.matmul_pd with
  | error e => simp only [h1] at h; cases h
  | ok matmul_p =>
  simp only [h1] at h
  cases h2 : create_opt engine pd.nspc_conv_pd with
  | error e => simp only [h2] at h; cases h
  | ok nspc_conv_p =>
  simp only [h2] at h
  cases h3 : create_opt engine pd.src_reorder_pd with
  | error e => simp only [h3] at h; cases h
  | ok src_reorder_p =>
  simp only [h3] at h
  cases h4 : create_opt engine pd.dst_pre_reorder_pd with
  | error e => simp only [h4] at h; cases h
  | ok dst_pre_reorder_p =>
  simp only [h4] at h
  cases h5 : create_opt engine pd.dst_post_reorder_pd with
  | error e => simp only [h5] at h; cases h
  | ok dst_post_reorder_p =>
  simp only [h5] at h
  cases h
  exact ⟨rfl, create_opt_ok engine _ _ h1, create_opt_ok engine _ _ h2⟩

/-- With a matmul primitive present the executor takes the matmul branch. -/
theorem execute_matmul_branch (fwd : ncsp_convolution_fwd_t)
    (h : fwd.matmul_p.isSome = true) (ctx : conv_arg → Nat)
    (run_mm : matmul_call → status_t) (run_step : step → status_t) :
    fwd.execute ctx run_mm run_step
      = .matmul (fwd.execute_matmul ctx) (run_mm (fwd.execute_matmul ctx)) := by
  unfold ncsp_convolution_fwd_t.execute
  rw [h]
  simp

/-- With no matmul primitive but a nested convolution present the executor
takes the reorder branch. -/
theorem execute_conv_branch (fwd : ncsp_convolution_fwd_t)
    (h1 : fwd.matmul_p.isSome = false) (h2 : fwd.nspc_conv_p.isSome = true)
    (ctx : conv_arg → Nat) (run_mm : matmul_call → status_t)
    (run_step : step → status_t) :
    fwd.execute ctx run_mm run_step
      = .convolution (ncsp_convolution_fwd_t.execute_convolution fwd.pd run_step).1
          (ncsp_convolution_fwd_t.execute_convolution fwd.pd run_step).2 := by
  unfold ncsp_convolution_fwd_t.execute
  rw [h1, h2]
  simp

/-- Claim C2: after any successful planning exactly one of the two plan
variants is populated — either the matmul sub-plan or the channel-last
convolution sub-plan, never both and never neither — and on a successfully
built instance the executor dispatches on exactly that variant. -/
theorem claim_C2_strategy_exclusivity (engine : engine_t) (c : conv_desc_t)
    (pd : pd_t) (h : pd_t.init engine c = .ok pd) :
    ((pd.matmul_pd.isSome = true ∧ pd.nspc_conv_pd.isSome = false)
      ∨ (pd.matmul_pd.isSome = false ∧ pd.nspc_conv_pd.isSome = true))
    ∧ (∀ engine2 fwd, ncsp_convolution_fwd_t.init engine2 pd = .ok fwd →
        ∀ (ctx : conv_arg → Nat) (run_mm : matmul_call → status_t)
          (run_step : step → status_t),
          (pd.matmul_pd.isSome = true →
            fwd.execute ctx run_mm run_step
              = .matmul (fwd.execute_matmul ctx) (run_mm (fwd.execute_matmul ctx)))
          ∧ (pd.nspc_conv_pd.isSome = true →
            fwd.execute ctx run_mm run_step
              = .convolution
                  (ncsp_convolution_fwd_t.execute_convolution pd run_step).1
                  (ncsp_convolution_fwd_t.execute_convolution pd run_step).2)) := by
  have hx : (pd.matmul_pd.isSome = true ∧ pd.nspc_conv_pd.isSome = false)
      ∨ (pd.matmul_pd.isSome = false ∧ pd.nspc_conv_pd.isSome = true) := by
    rcases pd_init_ok engine c pd h with ⟨-, hcase⟩
    rcases hcase with ⟨-, hb⟩ | ⟨-, hb⟩
    · rcases init_matmul_ok engine _ pd hb with ⟨-, -, hconv, -, -, -, -, -, -, -, hsome⟩
      left
      refine ⟨hsome, ?_⟩
      rw [hconv]
      rfl
    · rcases init_convolution_ok engine _ pd hb with ⟨-, -, hmm, hconv, -⟩
      right
      refine ⟨?_, hconv⟩
      rw [hmm]
      rfl
  refine ⟨hx, ?_⟩
  intro engine2 fwd hf ctx run_mm run_step
  rcases fwd_init_ok engine2 pd fwd hf with ⟨hpd, hm, hc⟩
  constructor
  · intro hsome
    exact execute_matmul_branch fwd (by rw [hm, hsome]) ctx run_mm run_step
  · intro hsome
    have hmf : pd.matmul_pd.isSome = false := by
      rcases hx with ⟨-, h2⟩ | ⟨h1, -⟩
      · rw [h2] at hsome; cases hsome
      · exact h1
    have := execute_conv_branch fwd (by rw [hm, hmf]) (by rw [hc, hsome])
      ctx run_mm run_step
    rw [hpd] at this
    exact this

/-- Claim C3: in the matmul strategy the operand roles are swapped — the
reshaped convolution weights become the matmul source descriptor, the
reshaped convolution source becomes the matmul weights descriptor and the
reshaped convolution destination the matmul destination — both in the
descriptors handed to the matmul constructor at plan time and in the buffer
handles wrapped at execution time. -/
theorem claim_C3_operand_role_swap (engine : engine_t) (c : conv_desc_t)
    (pd : pd_t) (h : pd_t.init engine c = .ok pd) (hm : pd.is_matmul = true) :
    reshape_weights pd.cfg c.weights_desc true = .ok pd.matmul_src_md
    ∧ reshape_activations pd.cfg c.src_desc true false = .ok pd.matmul_wei_md
    ∧ reshape_activations pd.cfg c.dst_desc true true = .ok pd.matmul_dst_md
    ∧ (engine.matmul_pd_create pd.matmul_src_md pd.matmul_wei_md none
        pd.matmul_dst_md).toOption = pd.matmul_pd
    ∧ pd.matmul_pd.isSome = true
    ∧ ∀ fwd : ncsp_convolution_fwd_t, fwd.pd = pd → ∀ ctx : conv_arg → Nat,
        fwd.execute_matmul ctx
          = { src := { handle := ctx .arg_weights, md := pd.matmul_src_md }
              weights := { handle := ctx .arg_src, md := pd.matmul_wei_md }
              dst := { handle := ctx .arg_dst, md := pd.matmul_dst_md }
              bias := none } := by
  rcases pd_init_ok engine c pd h with ⟨-, hcase⟩
  have hsel : sel_is_matmul c = true := by
    rw [← pd_init_is_matmul engine c pd h]
    exact hm
  rcases hcase with ⟨-, hb⟩ | ⟨hns, -⟩
  · rcases init_matmul_ok engine _ pd hb with
      ⟨hcfg, -, -, -, -, -, hdst, hwei, hsrc, hcreate, hsome⟩
    have hbias : c.with_bias = false := by
      have h2 := hsel
      unfold sel_is_matmul at h2
      simp only [Bool.and_eq_true, Bool.not_eq_true'] at h2
      exact h2.2
    refine ⟨?_, ?_, ?_, hcreate, hsome, ?_⟩
    · rw [hcfg]; exact hsrc
    · rw [hcfg]; exact hwei
    · rw [hcfg]; exact hdst
    · intro fwd hfpd ctx
      unfold ncsp_convolution_fwd_t.execute_matmul
      rw [hfpd, hcfg]
      have hwb : (pd_t.start c).cfg.with_bias = false := hbias
      rw [hwb]
      simp
  · rw [hns] at hsel
    cases hsel

/-- Claim C7: the reorder branch executes exactly the step sequence source
reorder, optional destination pre-reorder, nested convolution, destination
post-reorder, aborting at the first failing step and returning its status
verbatim, with no later step executed. -/
theorem claim_C7_reorder_step_sequence (pd : pd_t) (run : step → status_t) :
    ncsp_convolution_fwd_t.execute_convolution pd run
      = runSeq run (conv_exec_steps pd) := by
  unfold ncsp_convolution_fwd_t.execute_convolution conv_exec_steps
  by_cases hpre : pd.dst_pre_reorder_pd.isSome = true
  · by_cases h1 : run .src_reorder = .success
      <;> by_cases h2 : run .dst_pre_reorder = .success
      <;> by_cases h3 : run .conv = .success
      <;> by_cases h4 : run .dst_post_reorder = .success
      <;> simp [runSeq, hpre, h1, h2, h3, h4]
  · simp only [Bool.not_eq_true] at hpre
    by_cases h1 : run .src_reorder = .success
      <;> by_cases h3 : run .conv = .success
      <;> by_cases h4 : run .dst_post_reorder = .success
      <;> simp [runSeq, hpre, h1, h3, h4]

/-- The resolved-algorithm test equals membership of {auto, direct}. -/
theorem set_default_alg_kind_snd (a : alg_kind_t) :
    (set_default_alg_kind a).2
      = (a == .convolution_auto || a == .convolution_direct) := by
  cases a <;> rfl

/-- Claim C1 (amended): whenever planning succeeds, the matmul strategy is
selected iff all eligibility conditions hold, and whenever some eligibility
condition fails on a successful plan the reorder strategy with its nested
convolution is selected; however, failure of the forward-propagation,
direct-algorithm or default-attribute condition does not select the reorder
strategy — it makes planning itself fail with the non-fatal unimplemented
status. -/
theorem claim_C1_matmul_strategy_selection (engine : engine_t)
    (c : conv_desc_t) :
    (∀ pd, pd_t.init engine c = .ok pd →
      (pd.is_matmul = true ↔ matmul_eligible c = true)
      ∧ (matmul_eligible c = false →
          pd.is_matmul = false ∧ pd.nspc_conv_pd.isSome = true))
    ∧ (c.is_fwd = false ∨ c.attr_default = false
        ∨ (c.alg_kind == .convolution_auto
            || c.alg_kind == .convolution_direct) = false →
        pd_t.init engine c = .error .unimplemented) := by
  constructor
  · intro pd h
    rcases pd_init_ok engine c pd h with ⟨hg, hcase⟩
    have hsel : pd.is_matmul = sel_is_matmul c := pd_init_is_matmul engine c pd h
    have hgate := hg
    unfold init_gate at hgate
    simp only [Bool.and_eq_true] at hgate
    rcases hgate with ⟨⟨⟨⟨⟨hfwd, halg⟩, hattr⟩, -⟩, -⟩, -⟩
    have helig : matmul_eligible c = sel_is_matmul c := by
      unfold matmul_eligible sel_is_matmul is_gemm
      rw [← set_default_alg_kind_snd]
      rw [hfwd, halg, hattr]
      simp [Bool.and_comm, Bool.and_assoc, Bool.and_left_comm]
    constructor
    · rw [hsel, helig]
    · intro hne
      rw [helig] at hne
      refine ⟨by rw [hsel, hne], ?_⟩
      rcases hcase with ⟨hm, -⟩ | ⟨-, hb⟩
      · rw [hm] at hne; cases hne
      · exact (init_convolution_ok engine _ pd hb).2.2.2.1
  · intro hbad
    apply pd_init_gate_false
    unfold init_gate
    rcases hbad with hf | hf | hf
    · simp [hf]
    · simp [hf]
    · rw [set_default_alg_kind_snd] at *
      simp [hf]

/-- Claim C1, counterexample to the original claim: for a backward-data
configuration that satisfies every shape condition (1x1 kernel, zero padding,
unit stride, no bias, default attributes) under an engine whose constructors
always succeed, eligibility fails yet planning does not select the reorder
strategy — it fails with unimplemented, so no strategy is selected at all. -/
theorem claim_C1_counterexample :
    matmul_eligible cfgB = false
      ∧ pd_t.init env0 cfgB = .error .unimplemented := ⟨rfl, rfl⟩

/-- Claim C1, witness: on the concrete eligible configuration cfgM, planning
succeeds and selects the matmul strategy. -/
theorem claim_C1_witness :
    pd_t.init env0 cfgM = .ok pdM ∧ pdM.is_matmul = true :=
  ⟨rfl, ((claim_C1_matmul_strategy_selection env0 cfgM).1 pdM rfl).1.mpr rfl⟩

/-- Claim C2, witness: on the concrete eligible configuration cfgM the
exclusivity disjunction holds (the matmul sub-plan is populated and the
convolution sub-plan is not). -/
theorem claim_C2_witness :
    (pdM.matmul_pd.isSome = true ∧ pdM.nspc_conv_pd.isSome = false)
      ∨ (pdM.matmul_pd.isSome = false ∧ pdM.nspc_conv_pd.isSome = true) :=
  (claim_C2_strategy_exclusivity env0 cfgM pdM rfl).1

/-- Claim C3, witness: on the concrete plan for cfgM, the execution-time
argument wiring hands the weights buffer (handle 2) to the matmul as source
and the source buffer (handle 1) to the matmul as weights. -/
theorem claim_C3_witness :
    fwdM.execute_matmul ctx0
      = { src := { handle := 2, md := pdM.matmul_src_md }
          weights := { handle := 1, md := pdM.matmul_wei_md }
          dst := { handle := 3, md := pdM.matmul_dst_md }
          bias := none } :=
  (claim_C3_operand_role_swap env0 cfgM pdM rfl rfl).2.2.2.2.2 fwdM rfl ctx0

/-- Claim C6: in the reorder strategy the destination pre-reorder is planned
iff a sum-style accumulation into the existing destination is requested;
when planned it executes before the nested convolution, and when not
requested the step never appears in any execution trace. -/
theorem claim_C6_pre_reorder_accumulation (engine : engine_t)
    (c : conv_desc_t) (pd : pd_t) (h : pd_t.init engine c = .ok pd)
    (hm : pd.is_matmul = false) :
    pd.dst_pre_reorder_pd.isSome = c.with_sum
    ∧ (∀ run : step → status_t, c.with_sum = false →
        step.dst_pre_reorder
          ∉ (ncsp_convolution_fwd_t.execute_convolution pd run).2)
    ∧ (∀ run : step → status_t, c.with_sum = true →
        step.conv ∈ (ncsp_convolution_fwd_t.execute_convolution pd run).2 →
        (ncsp_convolution_fwd_t.execute_convolution pd run).2.take 3
          = [.src_reorder, .dst_pre_reorder, .conv]) := by
  rcases pd_init_ok engine c pd h with ⟨-, hcase⟩
  have hsel : pd.is_matmul = sel_is_matmul c := pd_init_is_matmul engine c pd h
  rcases hcase with ⟨hm2, -⟩ | ⟨-, hb⟩
  · rw [hm2] at hsel; rw [hsel] at hm; cases hm
  · have hpre : pd.dst_pre_reorder_pd.isSome = c.with_sum :=
      (init_convolution_ok engine _ pd hb).2.2.2.2.2.2
    refine ⟨hpre, ?_, ?_⟩
    · intro run hws
      rw [hws] at hpre
      unfold ncsp_convolution_fwd_t.execute_convolution
      by_cases h1 : run .src_reorder = .success
        <;> by_cases h3 : run .conv = .success
        <;> simp [hpre, h1, h3]
    · intro run hws hconv
      rw [hws] at hpre
      unfold ncsp_convolution_fwd_t.execute_convolution at *
      by_cases h1 : run .src_reorder = .success
        <;> by_cases h2 : run .dst_pre_reorder = .success
        <;> by_cases h3 : run .conv = .success
        <;> simp_all [hpre]

/-- Claim C6, witness: on the concrete accumulating reorder-strategy plan for
cfg6 the pre-reorder is planned, and with an all-success run environment the
executed trace starts with source reorder, destination pre-reorder, nested
convolution in that order. -/
theorem claim_C6_witness :
    pd6.dst_pre_reorder_pd.isSome = cfg6.with_sum
      ∧ (ncsp_convolution_fwd_t.execute_convolution pd6
          (fun _ => .success)).2.take 3
        = [.src_reorder, .dst_pre_reorder, .conv] := by
  have h := claim_C6_pre_reorder_accumulation env0 cfg6 pd6 rfl rfl
  exact ⟨h.1, h.2.2 (fun _ => .success) rfl (by decide)⟩

/-- Claim C8: regardless of strategy, planning fails with the non-fatal
unimplemented status whenever the source or destination descriptor does not
match the channel-first layout tag of its rank, or some tensor has a
zero-sized dimension; in that case it returns before populating any plan
variant. -/
theorem claim_C8_unsupported_shape (engine : engine_t) (c : conv_desc_t)
    (hbad : memory_desc_matches_tag c.src_desc (get_ncsp_tag c.ndims) = false
      ∨ memory_desc_matches_tag c.dst_desc (get_ncsp_tag c.ndims) = false
      ∨ has_zero_dim_memory c = true) :
    pd_t.init engine c = .error .unimplemented := by
  apply pd_init_gate_false
  unfold init_gate
  rcases hbad with hf | hf | hf <;> simp [hf]

/-- Claim C8, witness: a channel-last source descriptor is rejected with
unimplemented. -/
theorem claim_C8_witness : pd_t.init env0 cfgBad = .error .unimplemented :=
  claim_C8_unsupported_shape env0 cfgBad (Or.inl rfl)

/-- Reading the first n entries of a list through the zero-defaulted dims
array equals taking its first n entries. -/
theorem range_map_getD (l : List Nat) (n : Nat) (h : n ≤ l.length) :
    (List.range n).map (fun d => l.getD d 0) = l.take n := by
  induction n with
  | zero => simp
  | succ k ih =>
    have hk : k < l.length := lt_of_lt_of_le (Nat.lt_succ_self k) h
    rw [List.range_succ, List.map_append, ih (le_of_lt hk), List.take_succ]
    simp [List.getD_eq_getElem?_getD, List.getElem?_eq_getElem hk]

/-- The modelled reshape succeeds exactly when the element count matches. -/
theorem memory_desc_reshape_ok_iff (i : memory_desc_t) (nd : List Nat) :
    (∃ m, memory_desc_reshape i nd = .ok m) ↔ nd.prod = i.dims.prod := by
  unfold memory_desc_reshape
  split <;> simp_all

/-- The collapsed spatial axis of the activation reshape equals the product
of the source spatial extents. -/
theorem spatial_prod (c : conv_desc_t) (n ch : Nat) (sp : List Nat)
    (hs : c.src_desc.dims = n :: ch :: sp) (hlen : sp.length ≤ 3)
    (hne : sp ≠ []) : c.ID * c.IH * c.IW = sp.prod := by
  rcases sp with _ | ⟨a, _ | ⟨b, _ | ⟨d, _ | ⟨e, rest⟩⟩⟩⟩
  · exact absurd rfl hne
  · simp [conv_desc_t.ID, conv_desc_t.IH, conv_desc_t.IW, conv_desc_t.ndims,
      memory_desc_t.ndims, hs]
  · simp [conv_desc_t.ID, conv_desc_t.IH, conv_desc_t.IW, conv_desc_t.ndims,
      memory_desc_t.ndims, hs]
  · simp [conv_desc_t.ID, conv_desc_t.IH, conv_desc_t.IW, conv_desc_t.ndims,
      memory_desc_t.ndims, hs, Nat.mul_assoc]
  · simp at hlen

/-- Claim C4 (amended): for a non-grouped convolution, the activation reshape
of the pd's source descriptor to matmul shape followed by the inverse reshape
(which reads the original axes back from that descriptor) returns exactly the
original per-axis extents, element count and byte size; for grouped
convolutions the inverse activation reshape instead fails (see the
counterexample). -/
theorem claim_C4_reshape_round_trip (c : conv_desc_t) (n ch : Nat)
    (sp : List Nat) (hg : c.with_groups = false)
    (hs : c.src_desc.dims = n :: ch :: sp) (hlen : sp.length ≤ 3)
    (hne : sp ≠ []) :
    reshape_activations c c.src_desc true false
        = .ok { dims := [n, ch, sp.prod],
                data_type := c.src_desc.data_type, format := .blocked }
    ∧ reshape_activations c
        { dims := [n, ch, sp.prod], data_type := c.src_desc.data_type,
          format := .blocked } false false
        = .ok { dims := c.src_desc.dims,
                data_type := c.src_desc.data_type, format := .blocked }
    ∧ memory_desc_t.nelems
        ⟨c.src_desc.dims, c.src_desc.data_type, .blocked⟩ = c.src_desc.nelems
    ∧ memory_desc_t.size
        ⟨c.src_desc.dims, c.src_desc.data_type, .blocked⟩ = c.src_desc.size := by
  have hMB : c.MB = n := by simp [conv_desc_t.MB, hs]
  have hG : c.G = 1 := by simp [conv_desc_t.G, hg]
  have hch : c.src_desc.dims.getD 1 0 = ch := by simp [hs]
  have hsp : c.ID * c.IH * c.IW = sp.prod := spatial_prod c n ch sp hs hlen hne
  have hprod : ([n, ch, sp.prod] : List Nat).prod = c.src_desc.dims.prod := by
    rw [hs]
    simp
  have hrange : (List.range c.ndims).map (fun d => c.src_desc.dims.getD d 0)
      = c.src_desc.dims := by
    have hnd : c.ndims = c.src_desc.dims.length := rfl
    rw [hnd, range_map_getD _ _ (le_refl _), List.take_length]
  refine ⟨?_, ?_, rfl, rfl⟩
  · unfold reshape_activations
    rw [if_pos rfl, hg, hMB, hG, hch, hsp]
    simp only [Bool.false_eq_true, if_false, List.nil_append,
      List.cons_append, List.singleton_append, Nat.div_one]
    unfold memory_desc_reshape
    rw [if_pos hprod]
  · unfold reshape_activations
    rw [if_neg (by simp), hg]
    simp only [Bool.false_eq_true, if_false, List.replicate_zero,
      List.append_nil]
    rw [hrange]
    unfold memory_desc_reshape
    rw [if_pos hprod.symm]

/-- Claim C4, counterexample to the original claim: over the valid grouped
configuration cfgG the activation reshape of the source descriptor to matmul
shape succeeds, but the inverse reshape fails with ShapeError
(invalid_arguments) instead of returning the original descriptor, because the
inverse requests groups+ndims output axes while only ndims are filled,
leaving a zero extent. -/
theorem claim_C4_counterexample :
    reshape_activations cfgG cfgG.src_desc true false
        = .ok { dims := [2, 2, 2, 9], data_type := .f32, format := .blocked }
      ∧ reshape_activations cfgG
          { dims := [2, 2, 2, 9], data_type := .f32, format := .blocked }
          false false
        = .error .invalid_arguments := ⟨rfl, rfl⟩

/-- Claim C4, witness: the round trip holds on the concrete non-grouped
source descriptor of cfgM. -/
theorem claim_C4_witness :
    reshape_activations cfgM cfgM.src_desc true false
        = .ok { dims := [1, 2, List.prod [4, 4]], data_type := .f32,
                format := .blocked }
      ∧ reshape_activations cfgM
          { dims := [1, 2, List.prod [4, 4]], data_type := .f32,
            format := .blocked } false false
        = .ok { dims := cfgM.src_desc.dims, data_type := .f32,
                format := .blocked } := by
  have h := claim_C4_reshape_round_trip cfgM 1 2 [4, 4] rfl rfl
    (by decide) (by decide)
  exact ⟨h.1, h.2.1⟩

/-- Claim C9: the weight reshape towards matmul shape drops the kernel
spatial axes, so it is legal exactly when every kernel spatial extent equals
1; applied to a weight descriptor with any kernel spatial extent greater
than 1 it fails with ShapeError (invalid_arguments) rather than
succeeding. -/
theorem claim_C9_weight_reshape_validity (c : conv_desc_t)
    (w : memory_desc_t) (front ks : List Nat) (hw : w.dims = front ++ ks)
    (hfl : front.length = 2 + (if c.with_groups then 1 else 0))
    (hpos : ∀ x ∈ w.dims, 0 < x) :
    ((∀ x ∈ ks, x = 1) →
      reshape_weights c w true
        = .ok { dims := 1 :: front, data_type := w.data_type,
                format := .blocked })
    ∧ (∀ k ∈ ks, 1 < k →
        reshape_weights c w true = .error .invalid_arguments) := by
  have hle : 2 + (if c.with_groups then 1 else 0) ≤ w.dims.length := by
    rw [hw, List.length_append, hfl]
    omega
  have hmap : (List.range (2 + (if c.with_groups then 1 else 0))).map
      (fun d => w.dims.getD d 0) = front := by
    rw [range_map_getD _ _ hle, hw, ← hfl, List.take_left]
  have hfp : 0 < front.prod :=
    List.prod_pos fun x hx => hpos x (by rw [hw]; exact List.mem_append_left _ hx)
  have hwprod : w.dims.prod = front.prod * ks.prod := by
    rw [hw, List.prod_append]
  have hform : reshape_weights c w true
      = memory_desc_reshape w
          (1 :: (List.range (2 + (if c.with_groups then 1 else 0))).map
            (fun d => w.dims.getD d 0)) := rfl
  constructor
  · intro h1
    have hks : ks.prod = 1 := List.prod_eq_one h1
    rw [hform, hmap]
    unfold memory_desc_reshape
    rw [if_pos (by rw [List.prod_cons, one_mul, hwprod, hks, mul_one])]
  · intro k hk hk1
    have hks : 1 < ks.prod := by
      have h2 : k ≤ ks.prod :=
        List.single_le_prod
          (fun x hx => hpos x (by rw [hw]; exact List.mem_append_right _ hx)) k hk
      exact lt_of_lt_of_le hk1 h2
    rw [hform, hmap]
    unfold memory_desc_reshape
    rw [if_neg]
    rw [List.prod_cons, one_mul, hwprod]
    intro hcontra
    have hlt : front.prod < front.prod * ks.prod := by
      calc front.prod = front.prod * 1 := (mul_one _).symm
        _ < front.prod * ks.prod := mul_lt_mul_of_pos_left hks hfp
    omega

/-- Claim C9, witness: the 3x3-kernel weight descriptor of cfg6 is rejected
by the to-matmul weight reshape with ShapeError. -/
theorem claim_C9_witness :
    reshape_weights cfg6 cfg6.weights_desc true = .error .invalid_arguments :=
  (claim_C9_weight_reshape_validity cfg6 cfg6.weights_desc [2, 2] [3, 3]
    rfl rfl (by decide)).2 3 (by decide) (by decide)

/-- Entries read through the zero-defaulted dims array at valid indices of an
all-positive list are positive. -/
theorem getD_pos (l : List Nat) (i : Nat) (hi : i < l.length)
    (h : ∀ x ∈ l, 0 < x) : 0 < l.getD i 0 := by
  rw [List.getD_eq_getElem?_getD, List.getElem?_eq_getElem hi]
  simp only [Option.getD_some]
  exact h _ (List.getElem_mem hi)

/-- The input depth accessor is positive on all-positive source extents. -/
theorem ID_pos (c : conv_desc_t) (hpos : ∀ x ∈ c.src_desc.dims, 0 < x) :
    0 < c.ID := by
  unfold conv_desc_t.ID
  split
  · exact getD_pos _ _ (by unfold conv_desc_t.ndims memory_desc_t.ndims at *; omega) hpos
  · exact Nat.one_pos

/-- The input height accessor is positive on all-positive source extents. -/
theorem IH_pos (c : conv_desc_t) (hpos : ∀ x ∈ c.src_desc.dims, 0 < x) :
    0 < c.IH := by
  unfold conv_desc_t.IH
  split
  · exact getD_pos _ _ (by unfold conv_desc_t.ndims memory_desc_t.ndims at *; omega) hpos
  · exact Nat.one_pos

/-- The input width accessor is positive on all-positive source extents. -/
theorem IW_pos (c : conv_desc_t) (hpos : ∀ x ∈ c.src_desc.dims, 0 < x) :
    0 < c.IW := by
  unfold conv_desc_t.IW
  split
  · exact getD_pos _ _ (by unfold conv_desc_t.ndims memory_desc_t.ndims at *; omega) hpos
  · exact Nat.one_pos

/-- The product of the output accessors equals the product of the
destination spatial extents. -/
theorem out_spatial_prod (c : conv_desc_t) (n cs cd : Nat)
    (sps spd : List Nat) (hs : c.src_desc.dims = n :: cs :: sps)
    (hd : c.dst_desc.dims = n :: cd :: spd) (hlen : sps.length = spd.length)
    (hle : spd.length ≤ 3) (hne : spd ≠ []) :
    c.OD * c.OH * c.OW = spd.prod := by
  have hnd : c.ndims = spd.length + 2 := by
    simp [conv_desc_t.ndims, memory_desc_t.ndims, hs, hlen]
  rcases spd with _ | ⟨a, _ | ⟨b, _ | ⟨d, _ | ⟨e, rest⟩⟩⟩⟩
  · exact absurd rfl hne
  · simp [conv_desc_t.OD, conv_desc_t.OH, conv_desc_t.OW, hnd, hd]
  · simp [conv_desc_t.OD, conv_desc_t.OH, conv_desc_t.OW, hnd, hd]
  · simp [conv_desc_t.OD, conv_desc_t.OH, conv_desc_t.OW, hnd, hd,
      Nat.mul_assoc]
  · simp at hle

/-- Claim C10: the activation reshape of the destination collapses its
spatial axes to the product of the convolution's SOURCE spatial extents —
it succeeds exactly when that product matches the destination's own spatial
product — and under the matmul eligibility preconditions (1x1 kernel, zero
padding, unit stride) together with the externally validated output-extent
relation, output and input spatial extents coincide, so the reshape succeeds
with the destination's element count preserved exactly. -/
theorem claim_C10_dst_collapse_source_spatial (c : conv_desc_t)
    (n cs cd : Nat) (sps spd : List Nat)
    (hs : c.src_desc.dims = n :: cs :: sps)
    (hd : c.dst_desc.dims = n :: cd :: spd)
    (hlen : sps.length = spd.length) (hle : spd.length ≤ 3) (hne : spd ≠ [])
    (hpos_s : ∀ x ∈ c.src_desc.dims, 0 < x)
    (hpos_d : ∀ x ∈ c.dst_desc.dims, 0 < x)
    (hGdvd : c.G ∣ cd) (hGpos : 0 < c.G) :
    ((∃ m, reshape_activations c c.dst_desc true true = .ok m)
      ↔ c.ID * c.IH * c.IW = spd.prod)
    ∧ (is_gemm c = true → conv_shapes_consistent c →
        reshape_activations c c.dst_desc true true
          = .ok { dims := [c.MB] ++ (if c.with_groups then [c.G] else [])
                    ++ [cd / c.G, c.ID * c.IH * c.IW],
                  data_type := c.dst_desc.data_type, format := .blocked }
        ∧ ([c.MB] ++ (if c.with_groups then [c.G] else [])
            ++ [cd / c.G, c.ID * c.IH * c.IW]).prod = c.dst_desc.nelems) := by
  have hMB : c.MB = n := by simp [conv_desc_t.MB, hs]
  have hn : 0 < n := hpos_d n (by rw [hd]; exact List.mem_cons_self _ _)
  have hcd : 0 < cd :=
    hpos_d cd (by rw [hd]; exact List.mem_cons_of_mem _ (List.mem_cons_self _ _))
  have hform : reshape_activations c c.dst_desc true true
      = memory_desc_reshape c.dst_desc
          ([c.MB] ++ (if c.with_groups then [c.G] else [])
            ++ [c.dst_desc.dims.getD 1 0 / c.G, c.ID * c.IH * c.IW]) := rfl
  have hch : c.dst_desc.dims.getD 1 0 = cd := by simp [hd]
  have hndprod : ([c.MB] ++ (if c.with_groups then [c.G] else [])
      ++ [c.dst_desc.dims.getD 1 0 / c.G, c.ID * c.IH * c.IW]).prod
      = n * (cd * (c.ID * c.IH * c.IW)) := by
    rw [hch, hMB]
    by_cases hwg : c.with_groups = true
    · rw [if_pos hwg]
      obtain ⟨q, hq⟩ := hGdvd
      subst hq
      rw [Nat.mul_div_cancel_left q hGpos]
      simp only [List.cons_append, List.nil_append, List.singleton_append,
        List.prod_cons, List.prod_nil, mul_one]
      all_goals ring
    · have hG1 : c.G = 1 := by
        unfold conv_desc_t.G
        rw [if_neg (by simp [hwg])]
      rw [if_neg hwg, hG1, Nat.div_one]
      simp only [List.cons_append, List.nil_append, List.singleton_append,
        List.prod_cons, List.prod_nil, mul_one]
  have hdprod : c.dst_desc.dims.prod = n * (cd * spd.prod) := by
    rw [hd]
    simp [List.prod_cons]
  have hiff : (∃ m, reshape_activations c c.dst_desc true true = .ok m)
      ↔ c.ID * c.IH * c.IW = spd.prod := by
    rw [hform, memory_desc_reshape_ok_iff, hndprod, hdprod]
    constructor
    · intro he
      have h1 := Nat.eq_of_mul_eq_mul_left hn he
      exact Nat.eq_of_mul_eq_mul_left hcd h1
    · intro he
      rw [he]
  refine ⟨hiff, ?_⟩
  intro hgemm hcons
  simp only [is_gemm, Bool.and_eq_true, beq_iff_eq] at hgemm
  rcases hgemm with
    ⟨⟨⟨⟨⟨hKD, hKH⟩, hKW⟩, ⟨⟨hpf, hpt⟩, hpl⟩⟩, ⟨⟨hpb2, hpb3⟩, hpr⟩⟩, ⟨⟨hsd, hsh⟩, hsw⟩⟩
  rcases hcons with ⟨hOD, hOH, hOW⟩
  have hIDpos := ID_pos c hpos_s
  have hIHpos := IH_pos c hpos_s
  have hIWpos := IW_pos c hpos_s
  have hODID : c.OD = c.ID := by
    rw [hOD, hKD, hpf, hpb2, hsd]
    simp only [Nat.sub_self, Nat.zero_mul, Nat.zero_add, Nat.add_zero,
      Nat.div_one]
    omega
  have hOHIH : c.OH = c.IH := by
    rw [hOH, hKH, hpt, hpb3, hsh]
    simp only [Nat.sub_self, Nat.zero_mul, Nat.zero_add, Nat.add_zero,
      Nat.div_one]
    omega
  have hOWIW : c.OW = c.IW := by
    rw [hOW, hKW, hpl, hpr, hsw]
    simp only [Nat.sub_self, Nat.zero_mul, Nat.zero_add, Nat.add_zero,
      Nat.div_one]
    omega
  have hco : c.ID * c.IH * c.IW = spd.prod := by
    rw [← hODID, ← hOHIH, ← hOWIW]
    exact out_spatial_prod c n cs cd sps spd hs hd hlen hle hne
  have hcond : ([c.MB] ++ (if c.with_groups then [c.G] else [])
      ++ [c.dst_desc.dims.getD 1 0 / c.G, c.ID * c.IH * c.IW]).prod
      = c.dst_desc.dims.prod := by
    rw [hndprod, hdprod, hco]
  constructor
  · rw [hform]
    unfold memory_desc_reshape
    rw [if_pos hcond, hch]
  · rw [← hch]
    exact hcond

/-- Claim C10, witness: on the concrete eligible configuration cfgM the
destination reshape succeeds and collapses the destination spatial axes to
the source spatial product. -/
theorem claim_C10_witness :
    reshape_activations cfgM cfgM.dst_desc true true
      = .ok { dims := [cfgM.MB] ++ (if cfgM.with_groups then [cfgM.G] else [])
                ++ [2 / cfgM.G, cfgM.ID * cfgM.IH * cfgM.IW],
              data_type := cfgM.dst_desc.data_type, format := .blocked } :=
  ((claim_C10_dst_collapse_source_spatial cfgM 1 2 2 [4, 4] [4, 4]
    rfl rfl rfl (by decide) (by decide) (by decide) (by decide) (by decide)
    (by decide)).2 (by decide) (by decide)).1


/-- Claim C5, evaluation at the failing input: planning the reorder strategy
over 1-byte s8 tensors books exactly the destination and source channel-last
regions plus one nested region per present sub-operation (convolution, source
reorder, destination post-reorder; no pre-reorder since no accumulation), but
each flat region is booked with per-element size sizeof(dnnl_data_type_t) = 4
— the byte size of the data-type enum tag — while the element size of s8 is
1, contradicting the claimed element_count x element_size (no more).  The
matmul strategy on cfgM books exactly the single nested matmul region, as
claimed. -/
theorem claim_C5_scratch_booking_at_s8 :
    pd_t.init env0 cfgS8 = .ok pdS8
    ∧ pdS8.is_matmul = false
    ∧ pdS8.init_scratchpad
        = [.region .key_conv_ncsp_dst cfgS8.dst_desc.nelems sizeof_data_type_enum,
           .region .key_conv_ncsp_src cfgS8.src_desc.nelems sizeof_data_type_enum,
           .nested .key_nested 128, .nested .key_nested 32,
           .nested .key_nested 32]
    ∧ sizeof_data_type_enum = 4
    ∧ data_type_size cfgS8.src_desc.data_type = 1
    ∧ data_type_size cfgS8.dst_desc.data_type = 1
    ∧ pd_t.init env0 cfgM = .ok pdM
    ∧ pdM.is_matmul = true
    ∧ pdM.init_scratchpad = [.nested .key_nested 64] :=
  ⟨rfl, rfl, rfl, rfl, rfl, rfl, rfl, rfl, rfl⟩

end OneDnnNcspConv
